import Mathlib

/-!
Verification of the kafcat command-line driver (src/kafcat.py).

The development shallowly embeds the script: the command-line parsing is a
faithful model of Python's getopt module (short options "bf", long options
"host=" and "port="), the parsed-option dictionary models Python dict
construction from a pair list, and int() on strings is modelled by pyInt.
The external Kafka client library (connection, consumer cursor, commit,
message iteration) is modelled from the spec as a broker environment with
per-partition logs, earliest retained offsets and committed cursors.  A run
of the program is a pure function from the argument vector, the broker
environment and an interrupt scenario to a trace of observable effects.
-/

deriving instance DecidableEq for Except

namespace Kafcat

/-- Is an Except value an error?  Used to state that a parse raises
GetoptError without naming the message. -/
def isErr {ε α : Type} : Except ε α → Bool
  | .error _ => true
  | .ok _ => false

/-! ## String helpers (kernel-reducible replacements for Python str ops) -/

/-- Does the character list start with the given pattern list? -/
def listStartsWith : List Char → List Char → Bool
  | _, [] => true
  | [], _ :: _ => false
  | c :: cs, p :: ps => c = p && listStartsWith cs ps

/-- Python s.startswith(pat) on strings. -/
def strStartsWith (s pat : String) : Bool :=
  listStartsWith s.toList pat.toList

/-- Python s[n:], dropping the first n characters. -/
def strDrop (s : String) (n : Nat) : String :=
  String.mk (s.toList.drop n)

/-- Drop the last n characters of a string. -/
def strDropRight (s : String) (n : Nat) : String :=
  String.mk (s.toList.take (s.toList.length - n))

/-- Python s.endswith(suf) on strings. -/
def strEndsWith (s suf : String) : Bool :=
  listStartsWith s.toList.reverse suf.toList.reverse

/-- Split a character list at the first occurrence of a separator. -/
def splitAtChar (sep : Char) : List Char → Option (List Char × List Char)
  | [] => none
  | c :: rest =>
    if c = sep then some ([], rest)
    else
      match splitAtChar sep rest with
      | none => none
      | some (a, b) => some (c :: a, b)

/-- Python opt.index(chr(61)) splitting as used by getopt.do_longs: the part
before the first equals sign and, when present, the part after it. -/
def splitEq (s : String) : String × Option String :=
  match splitAtChar '=' s.toList with
  | none => (s, none)
  | some (a, b) => (String.mk a, some (String.mk b))

/-- Split a character list on every occurrence of a separator character. -/
def splitOnChar (sep : Char) : List Char → List (List Char)
  | [] => [[]]
  | c :: rest =>
    let r := splitOnChar sep rest
    if c = sep then [] :: r
    else
      match r with
      | [] => [[c]]
      | g :: gs => (c :: g) :: gs

/-- Python os.path.basename for slash-separated paths. -/
def basename (s : String) : String :=
  String.mk ((splitOnChar '/' s.toList).getLastD [])

/-- Python s.strip(): remove leading and trailing whitespace. -/
def pyStrip (s : String) : String :=
  String.mk (((s.toList.dropWhile Char.isWhitespace).reverse.dropWhile Char.isWhitespace).reverse)

/-! ## Python int() on strings -/

/-- Accumulate a decimal literal after its first digit; Python int() accepts
single underscores between digits and nothing else. -/
def pyDigitsAux : List Char → Nat → Option Nat
  | [], acc => some acc
  | '_' :: c :: rest, acc =>
    if c.isDigit then pyDigitsAux rest (acc * 10 + (c.toNat - 48)) else none
  | ['_'], _ => none
  | c :: rest, acc =>
    if c.isDigit then pyDigitsAux rest (acc * 10 + (c.toNat - 48)) else none

/-- Parse a nonempty unsigned decimal literal as Python int() does. -/
def pyDigitsVal : List Char → Option Nat
  | [] => none
  | c :: rest => if c.isDigit then pyDigitsAux rest (c.toNat - 48) else none

/-- Python int(s) on a decimal string: surrounding whitespace, an optional
sign, then digits.  Returns none where Python raises ValueError. -/
def pyInt (s : String) : Option Int :=
  match (pyStrip s).toList with
  | '+' :: rest => (pyDigitsVal rest).map Int.ofNat
  | '-' :: rest => (pyDigitsVal rest).map (fun n => -(Int.ofNat n : Int))
  | t => (pyDigitsVal t).map Int.ofNat

/-! ## Python getopt module

Faithful model of getopt.getopt: options are scanned left to right and the
scan stops at the first non-option argument; a lone "--" ends option
processing; long options allow "--opt=value", "--opt value" and unique
prefix matching; unknown options and missing option arguments raise
GetoptError.  The helpers return whether the next argument vector cell is
consumed as an option argument, which lets the driving loop recurse
structurally on the argument vector. -/

/-- Result of processing one long option word. -/
inductive LongResult where
  | err (msg : String)
  | done (pair : String × String)
  | needArg (optname : String)
deriving DecidableEq, Repr

/-- Result of processing one short-option cluster. -/
inductive ShortResult where
  | err (msg : String)
  | done (pairs : List (String × String))
  | needArg (pairs : List (String × String)) (optname : Char)
deriving DecidableEq, Repr

/-- getopt.long_has_args: which long option a word selects (allowing unique
prefixes) and whether it takes an argument. -/
def long_has_args (opt : String) (longopts : List String) : Except String (Bool × String) :=
  let possibilities := longopts.filter (fun o => strStartsWith o opt)
  if possibilities.isEmpty then
    .error ("option --" ++ opt ++ " not recognized")
  else if possibilities.contains opt then
    .ok (false, opt)
  else if possibilities.contains (opt ++ "=") then
    .ok (true, opt)
  else if 1 < possibilities.length then
    .error ("option --" ++ opt ++ " not a unique prefix")
  else
    match possibilities with
    | [] => .error ("option --" ++ opt ++ " not recognized")
    | u :: _ =>
      if strEndsWith u "=" then .ok (true, strDropRight u 1) else .ok (false, u)

/-- getopt.do_longs on the word following a leading "--": either an error, a
finished (option, value) pair, or a request for the next argv cell. -/
def do_longs1 (optStr : String) (longopts : List String) : LongResult :=
  let (opt0, optarg0) := splitEq optStr
  match long_has_args opt0 longopts with
  | .error e => .err e
  | .ok (true, opt) =>
    match optarg0 with
    | some v => .done ("--" ++ opt, v)
    | none => .needArg opt
  | .ok (false, opt) =>
    match optarg0 with
    | some _ => .err ("option --" ++ opt ++ " must not have an argument")
    | none => .done ("--" ++ opt, "")

/-- getopt.short_has_arg: whether a short option is recognized and whether it
takes an argument (a following colon in the short-option string). -/
def short_has_arg (opt : Char) : List Char → Except String Bool
  | [] => .error ("option -" ++ String.mk [opt] ++ " not recognized")
  | c :: rest =>
    if opt = c ∧ c ≠ ':' then
      .ok (match rest with | ':' :: _ => true | _ => false)
    else
      short_has_arg opt rest

/-- getopt.do_shorts on a cluster of short options following a leading "-":
either an error, finished pairs, or pairs plus a trailing option that
consumes the next argv cell. -/
def do_shorts1 : List Char → List Char → ShortResult
  | [], _ => .done []
  | c :: rest, shortopts =>
    match short_has_arg c shortopts with
    | .error e => .err e
    | .ok true =>
      match rest with
      | [] => .needArg [] c
      | _ :: _ => .done [("-" ++ String.mk [c], String.mk rest)]
    | .ok false =>
      match do_shorts1 rest shortopts with
      | .err e => .err e
      | .done ps => .done (("-" ++ String.mk [c], "") :: ps)
      | .needArg ps o => .needArg (("-" ++ String.mk [c], "") :: ps) o

/-- getopt.getopt main loop: scan the argument vector, accumulating parsed
(option, value) pairs, stopping at the first non-option argument, at a
lone "-" (kept as positional) or after a lone "--" (dropped). -/
def getoptAux (shortopts : List Char) (longopts : List String) :
    List (String × String) → List String → Except String (List (String × String) × List String)
  | opts, [] => .ok (opts, [])
  | opts, a :: rest =>
    if strStartsWith a "-" = false ∨ a = "-" then
      .ok (opts, a :: rest)
    else if a = "--" then
      .ok (opts, rest)
    else if strStartsWith a "--" then
      match do_longs1 (strDrop a 2) longopts with
      | .err e => .error e
      | .done pr => getoptAux shortopts longopts (opts ++ [pr]) rest
      | .needArg o =>
        match rest with
        | [] => .error ("option --" ++ o ++ " requires argument")
        | b :: rest2 => getoptAux shortopts longopts (opts ++ [("--" ++ o, b)]) rest2
    else
      match do_shorts1 (strDrop a 1).toList shortopts with
      | .err e => .error e
      | .done prs => getoptAux shortopts longopts (opts ++ prs) rest
      | .needArg prs o =>
        match rest with
        | [] => .error ("option -" ++ String.mk [o] ++ " requires argument")
        | b :: rest2 => getoptAux shortopts longopts (opts ++ prs ++ [("-" ++ String.mk [o], b)]) rest2

/-- Python getopt.getopt(args, shortopts, longopts). -/
def pygetopt (args : List String) (shortopts : String) (longopts : List String) :
    Except String (List (String × String) × List String) :=
  getoptAux shortopts.toList longopts [] args

/-- The getopt call made by kafcat: getopt.getopt(sys.argv[1:], chr(98) and
chr(102) as "bf", with long options "host=" and "port="). -/
def kafcatGetopt (args : List String) : Except String (List (String × String) × List String) :=
  pygetopt args "bf" ["host=", "port="]

/-! ## Python dict built from the parsed pair list -/

/-- Python dict(pairs).get(k, d): the value of the last pair with the given
key, the default when the key is absent. -/
def dictGet (l : List (String × String)) (k d : String) : String :=
  match l.reverse.find? (fun p => p.1 == k) with
  | some p => p.2
  | none => d

/-- Python (k in dict(pairs)): key membership. -/
def dictContains (l : List (String × String)) (k : String) : Bool :=
  l.any (fun p => p.1 == k)

end Kafcat

namespace Kafcat

/-! ## Broker environment and consumer model

Modelled from the spec: the Kafka client library (connection, consumer,
cursor, commit, message iteration) is an external collaborator.  A topic is
a list of partitions; each partition is an append-only log with an earliest
retained offset; the broker stores one committed cursor per partition under
the fixed group identifier.  The feed delivers each partition's backlog in
partition order (a fixed representative interleaving; the program preserves
whatever order the feed chooses). -/

/-- Modelled from the spec: one topic partition, an ordered log whose
messages sit at offsets earliest, earliest+1, ... -/
structure Partition where
  earliest : Nat
  msgs : List String
deriving DecidableEq, Repr

/-- Modelled from the spec: broker-side state, the partition logs and the
committed cursor of group "kafcat" for each partition. -/
structure KafkaEnv where
  partitions : List Partition
  committed : List Nat
deriving DecidableEq, Repr

/-- Messages a consumer positioned at cursor c still receives from a
partition (positions below the earliest retained offset read from it). -/
def Partition.avail (p : Partition) (c : Nat) : List String :=
  p.msgs.drop (max c p.earliest - p.earliest)

/-- Modelled from the spec: the message sequence the feed delivers to a
consumer holding the given per-partition cursors. -/
def feedFrom : List Partition → List Nat → List String
  | [], _ => []
  | _ :: _, [] => []
  | p :: ps, c :: cs => p.avail c ++ feedFrom ps cs

/-- Modelled from the spec: the per-partition cursors after the feed has
delivered k messages, consuming partitions in feed order.  A cursor moves
only when its partition actually delivers. -/
def advanceCursors : List Partition → List Nat → Nat → List Nat
  | [], _, _ => []
  | _ :: _, [], _ => []
  | p :: ps, c :: cs, k =>
    let n := min k (p.avail c).length
    (if n = 0 then c else max c p.earliest + n) :: advanceCursors ps cs (k - n)

/-! ## Observable run traces -/

/-- Observable effects on the broker and on standard output during the
consumption loop: a cursor seek, a printed payload, a cursor commit. -/
inductive Event where
  | seek (cursors : List Nat)
  | print (payload : String)
  | commit (cursors : List Nat)
deriving DecidableEq, Repr

/-- Interrupt scenarios: no interrupt; a KeyboardInterrupt raised while the
consumer is still None (during connecting); a KeyboardInterrupt raised
during streaming after k messages have been printed. -/
inductive Interrupt where
  | none
  | beforeConsumer
  | afterN (k : Nat)
deriving DecidableEq, Repr

/-- Everything observable about one invocation of kafcat: the process exit
status (none when the process never exits, i.e. blocked follow mode), the
text written to standard output, the seek/print/commit event trace, whether
a broker connection was attempted, the host and port the client would use,
the iter_timeout handed to the consumer, and the broker state afterwards. -/
structure RunTrace where
  exit : Option Nat
  stdout : String
  events : List Event
  connected : Bool
  host : String
  port : Option Int
  iterTimeout : Option ℚ
  envAfter : KafkaEnv

/-- The payloads printed during a run, in order. -/
def printsOf (evs : List Event) : List String :=
  evs.filterMap fun e => match e with | .print s => some s | _ => Option.none

/-- The cursor values committed during a run, in order. -/
def commitValues (evs : List Event) : List (List Nat) :=
  evs.filterMap fun e => match e with | .commit cs => some cs | _ => Option.none

/-- The last committed cursor value of a run, when any commit happened. -/
def lastCommitOf (evs : List Event) : Option (List Nat) :=
  (commitValues evs).getLast?

/-- Does the trace contain a seek? -/
def hasSeek (evs : List Event) : Bool :=
  evs.any fun e => match e with | .seek _ => true | _ => false

/-- Pointwise order on cursor vectors. -/
def cursorsLE (a b : List Nat) : Prop :=
  List.Forall₂ (· ≤ ·) a b

/-- Every commit in the trace persists exactly the cursor position reached
after the messages printed so far: walking the events with a count n of
prints seen, each commit must carry advanceCursors ps start n. -/
def commitsRespectPrints (ps : List Partition) (start : List Nat) : List Event → Nat → Prop
  | [], _ => True
  | Event.print _ :: rest, n => commitsRespectPrints ps start rest (n + 1)
  | Event.commit cs :: rest, n => cs = advanceCursors ps start n ∧ commitsRespectPrints ps start rest n
  | Event.seek _ :: rest, n => commitsRespectPrints ps start rest n

/-! ## The kafcat driver -/

/-- The usage text printed by usage() in src/kafcat.py. -/
def usageText (argv0 : String) : String :=
  "Usage: " ++ basename argv0 ++ " [options] topicname\n Options:\n" ++
  "  --host Host   Kafka node hostname. Default is \"localhost\";\n" ++
  "  --port Port   Kafka node port number. Default is 9092;\n" ++
  "  -b            extract from the beginning;\n" ++
  "  -f            output appended data as the topic grows.\n"

/-- Standard output produced by the consumption loop: each payload followed
by one newline, accumulated left to right exactly as the loop writes. -/
def streamOut (msgs : List String) : String :=
  msgs.foldl (fun acc m => acc ++ m ++ "\n") ""

/-- The seek performed by consumer.seek(0, 0) under -b, modelled from the
spec: every partition cursor moves to that partition's earliest available
offset. -/
def seekEventsOf (hasB : Bool) (env : KafkaEnv) : List Event :=
  if hasB then
    [.seek (env.partitions.map Partition.earliest), .commit (env.partitions.map Partition.earliest)]
  else
    []

/-- The cursors streaming starts from: the committed cursors, or every
partition's earliest offset when -b requested a seek. -/
def startCursors (hasB : Bool) (env : KafkaEnv) : List Nat :=
  if hasB then env.partitions.map Partition.earliest else env.committed

/-- The consumption phase of src/kafcat.py lines 44-62, after options were
parsed and the port string converted: construct client and consumer
(connection attempted), optionally seek to the beginning and commit, print
every message the feed delivers, and commit on normal end or interrupt.
Interrupt.beforeConsumer exits 130 with no commit (consumer is None);
Interrupt.afterN k exits 130 after committing the reached position; with no
interrupt, follow mode (-f, iter_timeout None) never exits while one-shot
mode (iter_timeout 0.5) drains the feed, commits and exits 0. -/
def kafcatStream (cmdOpts : List (String × String)) (env : KafkaEnv) (intr : Interrupt)
    (host : String) (port : Int) : RunTrace :=
  let timeout : Option ℚ := if dictContains cmdOpts "-f" then Option.none else some (0.5 : ℚ)
  match intr with
  | .beforeConsumer =>
    { exit := some 130, stdout := "", events := [], connected := true,
      host := host, port := some port, iterTimeout := timeout, envAfter := env }
  | .afterN k =>
    let hasB := dictContains cmdOpts "-b"
    let start := startCursors hasB env
    let delivered := (feedFrom env.partitions start).take k
    let cs := advanceCursors env.partitions start delivered.length
    { exit := some 130,
      stdout := streamOut delivered,
      events := seekEventsOf hasB env ++ delivered.map Event.print ++ [.commit cs],
      connected := true, host := host, port := some port, iterTimeout := timeout,
      envAfter := { partitions := env.partitions, committed := cs } }
  | .none =>
    let hasB := dictContains cmdOpts "-b"
    let start := startCursors hasB env
    let feed := feedFrom env.partitions start
    if dictContains cmdOpts "-f" then
      { exit := Option.none,
        stdout := streamOut feed,
        events := seekEventsOf hasB env ++ feed.map Event.print,
        connected := true, host := host, port := some port, iterTimeout := timeout,
        envAfter := { partitions := env.partitions, committed := startCursors hasB env } }
    else
      let cs := advanceCursors env.partitions start feed.length
      { exit := some 0,
        stdout := streamOut feed,
        events := seekEventsOf hasB env ++ feed.map Event.print ++ [.commit cs],
        connected := true, host := host, port := some port, iterTimeout := timeout,
        envAfter := { partitions := env.partitions, committed := cs } }

/-- One invocation of src/kafcat.py: parse the argument vector with
getopt(argv, "bf", ["host=", "port="]); on GetoptError print the message and
the usage text and exit 1; with other than exactly one positional argument
print the usage text and exit 1; then read --host and --port out of
dict(cmd_opts) and convert the port with int(), an uncaught ValueError
ending the process with status 1 before any connection; otherwise connect
and run the consumption loop. -/
def kafcatRun (argv0 : String) (argv : List String) (env : KafkaEnv) (intr : Interrupt) : RunTrace :=
  match kafcatGetopt argv with
  | .error _ =>
    { exit := some 1, stdout := usageText argv0, events := [], connected := false,
      host := "", port := Option.none, iterTimeout := Option.none, envAfter := env }
  | .ok (cmdOpts, cmdArgs) =>
    if cmdArgs.length ≠ 1 then
      { exit := some 1, stdout := usageText argv0, events := [], connected := false,
        host := "", port := Option.none, iterTimeout := Option.none, envAfter := env }
    else
      let host := dictGet cmdOpts "--host" "localhost"
      match pyInt (dictGet cmdOpts "--port" "9092") with
      | Option.none =>
        { exit := some 1, stdout := "", events := [], connected := false,
          host := host, port := Option.none, iterTimeout := Option.none, envAfter := env }
      | some port => kafcatStream cmdOpts env intr host port

/-- Was -b among the parsed options of an argument vector? -/
def kafcatHasB (argv : List String) : Bool :=
  match kafcatGetopt argv with
  | .ok (opts, _) => dictContains opts "-b"
  | .error _ => false

/-- The cursors streaming would start from for a given argument vector. -/
def startCursorsOf (argv : List String) (env : KafkaEnv) : List Nat :=
  startCursors (kafcatHasB argv) env

end Kafcat

namespace Kafcat

/-! ## Supporting lemmas -/

lemma streamOut_data (xs : List String) (acc : String) :
    (xs.foldl (fun a m => a ++ m ++ "\n") acc).data
      = acc.data ++ (xs.map (fun m => m.data ++ ['\n'])).flatten := by
  induction xs generalizing acc with
  | nil => simp
  | cons x xs ih =>
    have hn : ("\n" : String).data = ['\n'] := rfl
    simp [ih, String.data_append, hn, List.append_assoc]

/-- The loop output is each payload verbatim followed by one newline. -/
lemma streamOut_eq (xs : List String) :
    streamOut xs = String.join (xs.map (fun m => m ++ "\n")) := by
  apply String.ext
  rw [String.data_join]
  have hn : ("\n" : String).data = ['\n'] := rfl
  simpa [streamOut, List.map_map, Function.comp_def, String.data_append, hn]
    using streamOut_data xs ""

lemma printsOf_append (a b : List Event) : printsOf (a ++ b) = printsOf a ++ printsOf b := by
  simp [printsOf, List.filterMap_append]

lemma printsOf_map_print (xs : List String) : printsOf (xs.map Event.print) = xs := by
  induction xs with
  | nil => rfl
  | cons x xs ih => simp only [printsOf, List.map_cons, List.filterMap_cons] at ih ⊢; simp [ih]

lemma printsOf_seekEventsOf (b : Bool) (env : KafkaEnv) : printsOf (seekEventsOf b env) = [] := by
  cases b <;> simp [seekEventsOf, printsOf]

lemma printsOf_commit (cs : List Nat) : printsOf [Event.commit cs] = [] := rfl

lemma commitValues_commit (cs : List Nat) : commitValues [Event.commit cs] = [cs] := rfl

lemma commitValues_append (a b : List Event) :
    commitValues (a ++ b) = commitValues a ++ commitValues b := by
  simp [commitValues, List.filterMap_append]

lemma commitValues_map_print (xs : List String) : commitValues (xs.map Event.print) = [] := by
  induction xs with
  | nil => rfl
  | cons x xs ih => simp only [commitValues, List.map_cons, List.filterMap_cons] at ih ⊢; simp [ih]

lemma commitValues_seekEventsOf (b : Bool) (env : KafkaEnv) :
    commitValues (seekEventsOf b env)
      = if b then [env.partitions.map Partition.earliest] else [] := by
  cases b <;> simp [seekEventsOf, commitValues]

lemma hasSeek_append (a b : List Event) : hasSeek (a ++ b) = (hasSeek a || hasSeek b) := by
  simp [hasSeek, List.any_append]

lemma hasSeek_map_print (xs : List String) : hasSeek (xs.map Event.print) = false := by
  induction xs with
  | nil => rfl
  | cons x xs ih => simp only [hasSeek, List.map_cons, List.any_cons] at ih ⊢; simp [ih]

lemma hasSeek_commit (cs : List Nat) : hasSeek [Event.commit cs] = false := rfl

lemma advanceCursors_zero (ps : List Partition) (cs : List Nat) :
    advanceCursors ps cs 0 = cs.take ps.length := by
  induction ps generalizing cs with
  | nil => simp [advanceCursors]
  | cons p ps ih =>
    cases cs with
    | nil => simp [advanceCursors]
    | cons c cs => simp [advanceCursors, ih]

lemma advanceCursors_mono (ps : List Partition) (cs : List Nat) {k1 k2 : Nat} (h : k1 ≤ k2) :
    List.Forall₂ (· ≤ ·) (advanceCursors ps cs k1) (advanceCursors ps cs k2) := by
  induction ps generalizing cs k1 k2 with
  | nil => simp [advanceCursors]
  | cons p ps ih =>
    cases cs with
    | nil => simp [advanceCursors]
    | cons c cs =>
      simp only [advanceCursors]
      refine List.Forall₂.cons ?_ (ih cs ?_)
      · split_ifs <;> omega
      · omega

lemma cursorsLE_refl (a : List Nat) : cursorsLE a a :=
  List.forall₂_same.2 (fun x _ => Nat.le_refl x)

lemma feed_drained : ∀ (ps : List Partition) (cs : List Nat),
    feedFrom ps (advanceCursors ps cs (feedFrom ps cs).length) = []
  | [], _ => rfl
  | _ :: _, [] => rfl
  | p :: ps, c :: cs => by
    simp only [feedFrom, advanceCursors, List.length_append]
    have ha : min ((p.avail c).length + (feedFrom ps cs).length) (p.avail c).length
        = (p.avail c).length := by omega
    rw [ha]
    have hr : (p.avail c).length + (feedFrom ps cs).length - (p.avail c).length
        = (feedFrom ps cs).length := by omega
    rw [hr, feed_drained ps cs, List.append_nil]
    by_cases h0 : (p.avail c).length = 0
    · rw [if_pos h0]
      exact List.length_eq_zero.mp h0
    · rw [if_neg h0]
      unfold Partition.avail at h0 ⊢
      apply List.drop_eq_nil_of_le
      have h1 : p.earliest ≤ max c p.earliest := Nat.le_max_right c p.earliest
      have h2 : p.earliest ≤ max c p.earliest + (p.msgs.drop (max c p.earliest - p.earliest)).length :=
        Nat.le_trans h1 (Nat.le_add_right _ _)
      rw [Nat.max_eq_left h2]
      rw [List.length_drop] at h0 ⊢
      omega

lemma crp_nil (ps : List Partition) (start : List Nat) (n : Nat) :
    commitsRespectPrints ps start [] n := trivial

lemma crp_append_prints (ps : List Partition) (start : List Nat) (xs : List String)
    (rest : List Event) (n : Nat) :
    commitsRespectPrints ps start (xs.map Event.print ++ rest) n
      ↔ commitsRespectPrints ps start rest (n + xs.length) := by
  induction xs generalizing n with
  | nil => simp
  | cons x xs ih =>
    have hstep : commitsRespectPrints ps start ((x :: xs).map Event.print ++ rest) n
        = commitsRespectPrints ps start (xs.map Event.print ++ rest) (n + 1) := rfl
    rw [hstep, ih]
    have harith : n + 1 + xs.length = n + (x :: xs).length := by
      simp [List.length_cons]; omega
    rw [harith]

lemma crp_commit_single (ps : List Partition) (start : List Nat) (cs : List Nat) (n : Nat) :
    commitsRespectPrints ps start [Event.commit cs] n ↔ cs = advanceCursors ps start n := by
  simp [commitsRespectPrints]

end Kafcat

namespace Kafcat

/-- A successfully parsed run reduces to the consumption phase. -/
lemma kafcatRun_parsed (argv0 : String) {argv : List String} {opts : List (String × String)}
    {t : String} {n : Int} (env : KafkaEnv) (intr : Interrupt)
    (hok : kafcatGetopt argv = .ok (opts, [t]))
    (hport : pyInt (dictGet opts "--port" "9092") = some n) :
    kafcatRun argv0 argv env intr
      = kafcatStream opts env intr (dictGet opts "--host" "localhost") n := by
  unfold kafcatRun
  rw [hok]
  simp [hport]

lemma startCursorsOf_parsed {argv : List String} {opts : List (String × String)}
    {args : List String} (env : KafkaEnv)
    (hok : kafcatGetopt argv = .ok (opts, args)) :
    startCursorsOf argv env = startCursors (dictContains opts "-b") env := by
  unfold startCursorsOf kafcatHasB
  rw [hok]

lemma es_eq_advance_zero (env : KafkaEnv) :
    env.partitions.map Partition.earliest
      = advanceCursors env.partitions (env.partitions.map Partition.earliest) 0 := by
  rw [advanceCursors_zero]
  rw [show env.partitions.length = (env.partitions.map Partition.earliest).length from
    (List.length_map _ _).symm]
  rw [List.take_length]

/-- Commit discipline of a full streaming block: an optional seek-commit of
the earliest offsets, the prints, then whatever follows with the print count
carried forward. -/
lemma crp_full (env : KafkaEnv) (b : Bool) (xs : List String) (rest : List Event)
    (h : commitsRespectPrints env.partitions (startCursors b env) rest xs.length) :
    commitsRespectPrints env.partitions (startCursors b env)
      (seekEventsOf b env ++ (xs.map Event.print ++ rest)) 0 := by
  cases b with
  | false =>
    show commitsRespectPrints _ _ ([] ++ (xs.map Event.print ++ rest)) 0
    rw [List.nil_append]
    exact (crp_append_prints _ _ _ _ _).mpr (by simpa using h)
  | true =>
    show commitsRespectPrints env.partitions (startCursors true env)
      (Event.commit (env.partitions.map Partition.earliest) :: (xs.map Event.print ++ rest)) 0
    refine ⟨es_eq_advance_zero env, ?_⟩
    exact (crp_append_prints _ _ _ _ _).mpr (by simpa using h)

lemma commitValues_stream (env : KafkaEnv) (b : Bool) (xs : List String) (rest : List Event) :
    commitValues (seekEventsOf b env ++ (xs.map Event.print ++ rest))
      = (if b then [env.partitions.map Partition.earliest] else []) ++ commitValues rest := by
  rw [commitValues_append, commitValues_append, commitValues_map_print,
    commitValues_seekEventsOf, List.nil_append]

lemma printsOf_stream (env : KafkaEnv) (b : Bool) (xs : List String) (rest : List Event)
    (h : printsOf rest = []) :
    printsOf (seekEventsOf b env ++ (xs.map Event.print ++ rest)) = xs := by
  rw [printsOf_append, printsOf_append, printsOf_map_print, printsOf_seekEventsOf,
    List.nil_append, h, List.append_nil]

end Kafcat

namespace Kafcat

/-- No committed cursor in a streaming block lies ahead of the position
reached after all its prints. -/
lemma never_ahead_stream (env : KafkaEnv) (b : Bool) (xs : List String) (rest : List Event)
    (hrest : commitValues rest = []
      ∨ commitValues rest = [advanceCursors env.partitions (startCursors b env) xs.length])
    (hr : printsOf rest = []) :
    ∀ cs ∈ commitValues (seekEventsOf b env ++ (xs.map Event.print ++ rest)),
      cursorsLE cs (advanceCursors env.partitions (startCursors b env)
        (printsOf (seekEventsOf b env ++ (xs.map Event.print ++ rest))).length) := by
  intro cs hmem
  rw [printsOf_stream env b xs rest hr]
  rw [commitValues_stream] at hmem
  rcases List.mem_append.mp hmem with h1 | h2
  · cases b with
    | false => simp at h1
    | true =>
      simp only [if_pos] at h1
      rcases List.mem_singleton.mp h1 with h1
      subst h1
      show cursorsLE (env.partitions.map Partition.earliest)
        (advanceCursors env.partitions (startCursors true env) xs.length)
      have hs : startCursors true env = env.partitions.map Partition.earliest := rfl
      rw [hs]
      unfold cursorsLE
      nth_rewrite 1 [es_eq_advance_zero env]
      exact advanceCursors_mono _ _ (Nat.zero_le _)
  · rcases hrest with hr0 | hr1
    · rw [hr0] at h2; simp at h2
    · rw [hr1] at h2
      rcases List.mem_singleton.mp h2 with h2
      subst h2
      exact cursorsLE_refl _

/-- Claim C1: at every point in a run, the committed cursor reflects the
last message actually delivered to standard output (or the earliest offset,
if a reset was requested and no messages were yet delivered); it is never
committed at a position ahead of what was printed.  Every commit event in
the trace carries exactly the cursor position reached after the messages
printed so far, and no committed value exceeds the position after all
printed messages. -/
theorem commit_cursor_invariant (argv0 : String) (argv : List String) (env : KafkaEnv)
    (intr : Interrupt) :
    commitsRespectPrints env.partitions (startCursorsOf argv env)
      ((kafcatRun argv0 argv env intr).events) 0
    ∧ ∀ cs ∈ commitValues ((kafcatRun argv0 argv env intr).events),
        cursorsLE cs (advanceCursors env.partitions (startCursorsOf argv env)
          (printsOf ((kafcatRun argv0 argv env intr).events)).length) := by
  unfold kafcatRun
  cases hg : kafcatGetopt argv with
  | error e =>
    exact ⟨trivial, by simp [commitValues]⟩
  | ok pr =>
    obtain ⟨opts, args⟩ := pr
    have hstart : startCursorsOf argv env = startCursors (dictContains opts "-b") env :=
      startCursorsOf_parsed env hg
    rw [hstart]
    dsimp only
    by_cases hlen : args.length = 1
    · rw [if_neg (not_not_intro hlen)]
      cases hp : pyInt (dictGet opts "--port" "9092") with
      | none => exact ⟨trivial, by simp [commitValues]⟩
      | some n =>
        unfold kafcatStream
        cases intr with
        | beforeConsumer => exact ⟨trivial, by simp [commitValues]⟩
        | afterN k =>
          simp only [List.append_assoc]
          constructor
          · exact crp_full env _ _ _ ((crp_commit_single _ _ _ _).mpr rfl)
          · exact never_ahead_stream env _ _ _ (Or.inr (by rfl)) rfl
        | none =>
          by_cases hf : dictContains opts "-f" = true
          · simp only [if_pos hf]
            rw [show (List.map Event.print (feedFrom env.partitions
                (startCursors (dictContains opts "-b") env)))
              = (List.map Event.print (feedFrom env.partitions
                (startCursors (dictContains opts "-b") env)) ++ []) from (List.append_nil _).symm]
            constructor
            · exact crp_full env _ _ [] trivial
            · exact never_ahead_stream env _ _ [] (Or.inl rfl) rfl
          · simp only [if_neg hf]
            simp only [List.append_assoc]
            constructor
            · exact crp_full env _ _ _ ((crp_commit_single _ _ _ _).mpr rfl)
            · exact never_ahead_stream env _ _ _ (Or.inr (by rfl)) rfl
    · rw [if_pos hlen]
      exact ⟨trivial, by simp [commitValues]⟩

end Kafcat

namespace Kafcat

lemma hasSeek_block_b_false (env : KafkaEnv) (xs : List String) (rest : List Event)
    (h : hasSeek rest = false) :
    hasSeek (seekEventsOf false env ++ (xs.map Event.print ++ rest)) = false := by
  show hasSeek ([] ++ (xs.map Event.print ++ rest)) = false
  rw [List.nil_append, hasSeek_append, hasSeek_map_print, h]
  rfl

/-- Claim C2: if and only if the -b flag is given, the program moves the
consumer cursor to the earliest available offset for every partition of the
topic and immediately persists (commits) that cursor, before any message
payload is written to standard output; when -b is absent this seek-and-commit
step is entirely skipped.  With -b the trace begins with a seek of every
partition to its earliest offset immediately followed by a commit of those
cursors, ahead of every print, and the printed messages are a prefix of the
feed restarted from the earliest offsets regardless of the previously
committed position; without -b the trace contains no seek at all. -/
theorem seek_commit_iff_b (argv0 : String) (argv : List String) (env : KafkaEnv)
    (intr : Interrupt) (opts : List (String × String)) (t : String) (n : Int)
    (hok : kafcatGetopt argv = .ok (opts, [t]))
    (hport : pyInt (dictGet opts "--port" "9092") = some n)
    (hintr : intr ≠ Interrupt.beforeConsumer) :
    (dictContains opts "-b" = true →
      (∃ rest, (kafcatRun argv0 argv env intr).events
          = Event.seek (env.partitions.map Partition.earliest)
            :: Event.commit (env.partitions.map Partition.earliest) :: rest)
      ∧ (∃ rest, feedFrom env.partitions (env.partitions.map Partition.earliest)
          = printsOf ((kafcatRun argv0 argv env intr).events) ++ rest))
    ∧ (dictContains opts "-b" = false →
      hasSeek ((kafcatRun argv0 argv env intr).events) = false) := by
  rw [kafcatRun_parsed argv0 env intr hok hport]
  unfold kafcatStream
  cases intr with
  | beforeConsumer => exact absurd rfl hintr
  | afterN k =>
    dsimp only
    constructor
    · intro hb
      rw [hb]
      constructor
      · rw [List.append_assoc]
        exact ⟨_, rfl⟩
      · rw [List.append_assoc, printsOf_stream env true _ _ (printsOf_commit _)]
        have hs : startCursors true env = env.partitions.map Partition.earliest := rfl
        rw [hs]
        exact ⟨_, (List.take_append_drop k _).symm⟩
    · intro hb
      rw [hb]
      rw [List.append_assoc]
      exact hasSeek_block_b_false env _ _ rfl
  | none =>
    by_cases hf : dictContains opts "-f" = true
    · simp only [if_pos hf]
      constructor
      · intro hb
        rw [hb]
        constructor
        · exact ⟨_, rfl⟩
        · rw [show (List.map Event.print (feedFrom env.partitions (startCursors true env)))
              = (List.map Event.print (feedFrom env.partitions (startCursors true env)) ++ [])
              from (List.append_nil _).symm,
            printsOf_stream env true _ [] rfl]
          have hs : startCursors true env = env.partitions.map Partition.earliest := rfl
          rw [hs]
          exact ⟨[], (List.append_nil _).symm⟩
      · intro hb
        rw [hb]
        rw [show (List.map Event.print (feedFrom env.partitions (startCursors false env)))
            = (List.map Event.print (feedFrom env.partitions (startCursors false env)) ++ [])
            from (List.append_nil _).symm]
        exact hasSeek_block_b_false env _ _ rfl
    · simp only [if_neg hf]
      constructor
      · intro hb
        rw [hb]
        constructor
        · rw [List.append_assoc]
          exact ⟨_, rfl⟩
        · rw [List.append_assoc, printsOf_stream env true _ _ (printsOf_commit _)]
          have hs : startCursors true env = env.partitions.map Partition.earliest := rfl
          rw [hs]
          exact ⟨[], (List.append_nil _).symm⟩
      · intro hb
        rw [hb]
        rw [List.append_assoc]
        exact hasSeek_block_b_false env _ _ rfl

end Kafcat

namespace Kafcat

/-- Claim C3: with the -f flag the message sequence is unbounded and the
consumption loop never terminates on its own (it must be externally
interrupted); without -f the sequence terminates after an idle period of 0.5
seconds with no new message, so the program drains currently available
messages and then returns rather than hanging forever.  With -f the consumer
is built with iter_timeout None and an uninterrupted run never exits (only
an interrupt ends it, with status 130); without -f the consumer is built
with iter_timeout 0.5 and an uninterrupted run exits with status 0. -/
theorem follow_vs_oneshot (argv0 : String) (argv : List String) (env : KafkaEnv)
    (opts : List (String × String)) (t : String) (n : Int)
    (hok : kafcatGetopt argv = .ok (opts, [t]))
    (hport : pyInt (dictGet opts "--port" "9092") = some n) :
    (dictContains opts "-f" = true →
      (kafcatRun argv0 argv env Interrupt.none).iterTimeout = Option.none
      ∧ (kafcatRun argv0 argv env Interrupt.none).exit = Option.none
      ∧ ∀ k, (kafcatRun argv0 argv env (Interrupt.afterN k)).exit = some 130)
    ∧ (dictContains opts "-f" = false →
      (kafcatRun argv0 argv env Interrupt.none).iterTimeout = some (0.5 : ℚ)
      ∧ (kafcatRun argv0 argv env Interrupt.none).exit = some 0) := by
  constructor
  · intro hf
    refine ⟨?_, ?_, ?_⟩
    · rw [kafcatRun_parsed argv0 env Interrupt.none hok hport]
      unfold kafcatStream
      simp [hf]
    · rw [kafcatRun_parsed argv0 env Interrupt.none hok hport]
      unfold kafcatStream
      simp [hf]
    · intro k
      rw [kafcatRun_parsed argv0 env (Interrupt.afterN k) hok hport]
      rfl
  · intro hf
    constructor
    · rw [kafcatRun_parsed argv0 env Interrupt.none hok hport]
      unfold kafcatStream
      simp [hf]
    · rw [kafcatRun_parsed argv0 env Interrupt.none hok hport]
      unfold kafcatStream
      simp [hf]

/-- Claim C4: on a user interrupt the program stops consuming, commits the
current cursor if a consumer was successfully constructed, and exits with
status 130; if the interrupt arrives before a consumer was constructed it
exits with status 130 without attempting a commit.  An interrupt during
connecting exits 130 with no commit event and the broker state untouched;
an interrupt during streaming exits 130 having printed only the first k fed
messages, and its last commit persists exactly the cursor position reached
after those prints. -/
theorem interrupt_exit_130 (argv0 : String) (argv : List String) (env : KafkaEnv)
    (opts : List (String × String)) (t : String) (n : Int) (k : Nat)
    (hok : kafcatGetopt argv = .ok (opts, [t]))
    (hport : pyInt (dictGet opts "--port" "9092") = some n) :
    ((kafcatRun argv0 argv env Interrupt.beforeConsumer).exit = some 130
      ∧ commitValues ((kafcatRun argv0 argv env Interrupt.beforeConsumer).events) = []
      ∧ (kafcatRun argv0 argv env Interrupt.beforeConsumer).envAfter = env)
    ∧ ((kafcatRun argv0 argv env (Interrupt.afterN k)).exit = some 130
      ∧ printsOf ((kafcatRun argv0 argv env (Interrupt.afterN k)).events)
          = (feedFrom env.partitions (startCursorsOf argv env)).take k
      ∧ lastCommitOf ((kafcatRun argv0 argv env (Interrupt.afterN k)).events)
          = some (advanceCursors env.partitions (startCursorsOf argv env)
              (printsOf ((kafcatRun argv0 argv env (Interrupt.afterN k)).events)).length)
      ∧ (kafcatRun argv0 argv env (Interrupt.afterN k)).envAfter.committed
          = advanceCursors env.partitions (startCursorsOf argv env)
              (printsOf ((kafcatRun argv0 argv env (Interrupt.afterN k)).events)).length) := by
  rw [kafcatRun_parsed argv0 env Interrupt.beforeConsumer hok hport,
    kafcatRun_parsed argv0 env (Interrupt.afterN k) hok hport,
    startCursorsOf_parsed env hok]
  unfold kafcatStream
  refine ⟨⟨rfl, rfl, rfl⟩, rfl, ?_⟩
  dsimp only
  rw [List.append_assoc, printsOf_stream env _ _ _ (printsOf_commit _)]
  refine ⟨rfl, ?_, ?_⟩
  · unfold lastCommitOf
    rw [← List.append_assoc, commitValues_append, commitValues_append,
      commitValues_map_print, List.append_nil, commitValues_commit]
    exact List.getLast?_concat _
  · rfl

end Kafcat

namespace Kafcat

/-- Claim C5: for every message produced by the feed, the program writes
that message's payload verbatim to standard output followed by exactly one
newline character, and messages are written in the order delivered by the
feed, with no framing or escaping of payloads.  The bytes on standard
output are exactly the concatenation of payload-plus-newline for the
printed messages, and the printed messages are a prefix of the feed in feed
order. -/
theorem output_verbatim_newline (argv0 : String) (argv : List String) (env : KafkaEnv)
    (intr : Interrupt) (opts : List (String × String)) (t : String) (n : Int)
    (hok : kafcatGetopt argv = .ok (opts, [t]))
    (hport : pyInt (dictGet opts "--port" "9092") = some n)
    (hintr : intr ≠ Interrupt.beforeConsumer) :
    (kafcatRun argv0 argv env intr).stdout
      = String.join ((printsOf ((kafcatRun argv0 argv env intr).events)).map (fun m => m ++ "\n"))
    ∧ ∃ rest, feedFrom env.partitions (startCursorsOf argv env)
        = printsOf ((kafcatRun argv0 argv env intr).events) ++ rest := by
  rw [kafcatRun_parsed argv0 env intr hok hport, startCursorsOf_parsed env hok]
  unfold kafcatStream
  cases intr with
  | beforeConsumer => exact absurd rfl hintr
  | afterN k =>
    dsimp only
    rw [List.append_assoc, printsOf_stream env _ _ _ (printsOf_commit _)]
    exact ⟨streamOut_eq _, ⟨_, (List.take_append_drop k _).symm⟩⟩
  | none =>
    by_cases hf : dictContains opts "-f" = true
    · simp only [if_pos hf]
      rw [show (List.map Event.print (feedFrom env.partitions
            (startCursors (dictContains opts "-b") env)))
          = (List.map Event.print (feedFrom env.partitions
            (startCursors (dictContains opts "-b") env)) ++ [])
          from (List.append_nil _).symm,
        printsOf_stream env _ _ [] rfl]
      exact ⟨streamOut_eq _, ⟨[], (List.append_nil _).symm⟩⟩
    · simp only [if_neg hf]
      rw [List.append_assoc, printsOf_stream env _ _ _ (printsOf_commit _)]
      exact ⟨streamOut_eq _, ⟨[], (List.append_nil _).symm⟩⟩

/-- Claim C8: when the message sequence ends by one-shot exhaustion (not
interrupt), the program persists the current cursor and then exits with
status 0.  In an uninterrupted run without -f, every available message is
printed, the last trace event is a commit of exactly the cursor position
after those prints, the broker ends up with that committed cursor, and the
exit status is 0. -/
theorem oneshot_commit_exit0 (argv0 : String) (argv : List String) (env : KafkaEnv)
    (opts : List (String × String)) (t : String) (n : Int)
    (hok : kafcatGetopt argv = .ok (opts, [t]))
    (hport : pyInt (dictGet opts "--port" "9092") = some n)
    (hf : dictContains opts "-f" = false) :
    (kafcatRun argv0 argv env Interrupt.none).exit = some 0
    ∧ printsOf ((kafcatRun argv0 argv env Interrupt.none).events)
        = feedFrom env.partitions (startCursorsOf argv env)
    ∧ ((kafcatRun argv0 argv env Interrupt.none).events).getLast?
        = some (Event.commit (advanceCursors env.partitions (startCursorsOf argv env)
            (printsOf ((kafcatRun argv0 argv env Interrupt.none).events)).length))
    ∧ (kafcatRun argv0 argv env Interrupt.none).envAfter.committed
        = advanceCursors env.partitions (startCursorsOf argv env)
            (printsOf ((kafcatRun argv0 argv env Interrupt.none).events)).length := by
  rw [kafcatRun_parsed argv0 env Interrupt.none hok hport, startCursorsOf_parsed env hok]
  unfold kafcatStream
  have hf2 : ¬(dictContains opts "-f" = true) := by simp [hf]
  rw [if_neg hf2]
  dsimp only
  rw [if_neg hf2]
  rw [List.append_assoc, printsOf_stream env _ _ _ (printsOf_commit _)]
  refine ⟨rfl, rfl, ?_, rfl⟩
  rw [← List.append_assoc]
  exact List.getLast?_concat _

end Kafcat

namespace Kafcat

/-- Claim C9: running one-shot mode (no -b, no -f) twice in a row against
the same topic with no new messages produced between the runs yields empty
output on the second run, because the first run advanced and committed the
cursor past all messages it printed.  Rerunning on the broker state left by
an uninterrupted one-shot run prints nothing, writes nothing, and still
exits 0. -/
theorem oneshot_idempotent (argv0 : String) (argv : List String) (env : KafkaEnv)
    (opts : List (String × String)) (t : String) (n : Int)
    (hok : kafcatGetopt argv = .ok (opts, [t]))
    (hport : pyInt (dictGet opts "--port" "9092") = some n)
    (hb : dictContains opts "-b" = false)
    (hf : dictContains opts "-f" = false) :
    printsOf ((kafcatRun argv0 argv ((kafcatRun argv0 argv env Interrupt.none).envAfter)
        Interrupt.none).events) = []
    ∧ (kafcatRun argv0 argv ((kafcatRun argv0 argv env Interrupt.none).envAfter)
        Interrupt.none).stdout = ""
    ∧ (kafcatRun argv0 argv ((kafcatRun argv0 argv env Interrupt.none).envAfter)
        Interrupt.none).exit = some 0 := by
  have hf2 : ¬(dictContains opts "-f" = true) := by simp [hf]
  have henv1 : (kafcatRun argv0 argv env Interrupt.none).envAfter
      = ⟨env.partitions, advanceCursors env.partitions env.committed
          (feedFrom env.partitions env.committed).length⟩ := by
    rw [kafcatRun_parsed argv0 env Interrupt.none hok hport]
    unfold kafcatStream
    rw [if_neg hf2]
    dsimp only
    rw [if_neg hf2]
    rw [hb]
    rfl
  rw [henv1, kafcatRun_parsed argv0 _ Interrupt.none hok hport]
  unfold kafcatStream
  rw [if_neg hf2]
  dsimp only
  rw [if_neg hf2, hb]
  refine ⟨?_, ?_, rfl⟩ <;>
    simp [startCursors, feed_drained, printsOf, seekEventsOf, streamOut]

end Kafcat

namespace Kafcat

/-- Claim C6: for every argument vector that is malformed (an unknown flag,
wrong option arity, or a missing or extra positional argument), the program
prints a usage message and exits with status 1.  Malformed means getopt
raises GetoptError or the positional count differs from one; each named
category is malformed, as the closed conjuncts witness. -/
theorem malformed_args_usage (argv0 : String) (argv : List String) (env : KafkaEnv)
    (intr : Interrupt)
    (hbad : isErr (kafcatGetopt argv) = true
      ∨ ∃ opts args, kafcatGetopt argv = .ok (opts, args) ∧ args.length ≠ 1) :
    ((kafcatRun argv0 argv env intr).exit = some 1
      ∧ (kafcatRun argv0 argv env intr).stdout = usageText argv0
      ∧ (kafcatRun argv0 argv env intr).connected = false)
    ∧ isErr (kafcatGetopt ["-x", "t"]) = true
    ∧ isErr (kafcatGetopt ["--host"]) = true
    ∧ kafcatGetopt [] = .ok ([], [])
    ∧ kafcatGetopt ["t1", "t2"] = .ok ([], ["t1", "t2"]) := by
  refine ⟨?_, by decide, by decide, by decide, by decide⟩
  unfold kafcatRun
  cases hg : kafcatGetopt argv with
  | error e => exact ⟨rfl, rfl, rfl⟩
  | ok pr =>
    obtain ⟨opts, args⟩ := pr
    dsimp only
    rcases hbad with h | ⟨opts2, args2, h2, hlen⟩
    · rw [hg] at h
      exact absurd h (by simp [isErr])
    · rw [hg] at h2
      injection h2 with h3
      cases h3
      rw [if_pos hlen]
      exact ⟨rfl, rfl, rfl⟩

lemma getoptAux_stop (so : List Char) (lo : List String) (opts : List (String × String))
    (a : String) (rest : List String)
    (h : strStartsWith a "-" = false ∨ a = "-") :
    getoptAux so lo opts (a :: rest) = .ok (opts, a :: rest) := by
  rw [getoptAux]
  rw [if_pos h]

lemma getoptAux_step_long (so : List Char) (lo : List String) (opts : List (String × String))
    (a o b : String) (rest : List String)
    (h1 : strStartsWith a "-" = true) (h2 : a ≠ "-") (h3 : a ≠ "--")
    (h4 : strStartsWith a "--" = true)
    (h5 : do_longs1 (strDrop a 2) lo = .needArg o) :
    getoptAux so lo opts (a :: b :: rest) = getoptAux so lo (opts ++ [("--" ++ o, b)]) rest := by
  rw [getoptAux]
  rw [if_neg (by simp [h1, h2]), if_neg h3, if_pos h4, h5]

end Kafcat

namespace Kafcat

/-- Claim C7: for every invalid argument vector (for example two positional
topic names, or a non-integer value such as "--port abc"), the program exits
with status 1 and never attempts a network connection to the broker.  Every
run that exits 1 attempted no connection; two positionals exit 1 without
connecting; a --port value that int() rejects exits 1 without connecting. -/
theorem invalid_args_no_connection (argv0 : String) (env : KafkaEnv) (intr : Interrupt) :
    (∀ argv, (kafcatRun argv0 argv env intr).exit = some 1
      → (kafcatRun argv0 argv env intr).connected = false)
    ∧ (∀ t1 t2, strStartsWith t1 "-" = false
      → (kafcatRun argv0 [t1, t2] env intr).exit = some 1
        ∧ (kafcatRun argv0 [t1, t2] env intr).connected = false)
    ∧ (∀ s topic, strStartsWith topic "-" = false → pyInt s = Option.none
      → (kafcatRun argv0 ["--port", s, topic] env intr).exit = some 1
        ∧ (kafcatRun argv0 ["--port", s, topic] env intr).connected = false) := by
  refine ⟨?_, ?_, ?_⟩
  · intro argv h
    unfold kafcatRun at h ⊢
    cases hg : kafcatGetopt argv with
    | error e => rfl
    | ok pr =>
      obtain ⟨opts, args⟩ := pr
      rw [hg] at h
      dsimp only at h ⊢
      by_cases hlen : args.length = 1
      · rw [if_neg (not_not_intro hlen)] at h ⊢
        cases hp : pyInt (dictGet opts "--port" "9092") with
        | none => rfl
        | some m =>
          exfalso
          rw [hp] at h
          replace h : (kafcatStream opts env intr (dictGet opts "--host" "localhost") m).exit
              = some 1 := h
          unfold kafcatStream at h
          cases intr <;> cases hfb : dictContains opts "-f" <;> simp [hfb] at h
      · rw [if_pos hlen]
  · intro t1 t2 h
    have hg : kafcatGetopt [t1, t2] = .ok ([], [t1, t2]) :=
      getoptAux_stop _ _ _ _ _ (Or.inl h)
    unfold kafcatRun
    rw [hg]
    dsimp only
    rw [if_pos (by simp)]
    exact ⟨rfl, rfl⟩
  · intro s topic ht hs
    have hg : kafcatGetopt ["--port", s, topic] = .ok ([("--port", s)], [topic]) := by
      unfold kafcatGetopt pygetopt
      rw [getoptAux_step_long _ _ _ "--port" "port" s [topic]
        (by decide) (by decide) (by decide) (by decide) (by decide)]
      exact getoptAux_stop _ _ _ _ _ (Or.inl ht)
    have hd : dictGet [("--port", s)] "--port" "9092" = s := rfl
    unfold kafcatRun
    rw [hg]
    dsimp only
    rw [if_neg (by simp)]
    rw [show pyInt (dictGet [("--port", s)] "--port" "9092") = Option.none from hd ▸ hs]
    exact ⟨rfl, rfl⟩

end Kafcat

namespace Kafcat

/-- Claim C10: if the --host or --port option is supplied more than once in
the argument vector, the program silently uses the last occurrence's value
(the parsed option list is collapsed into a dictionary, so earlier
duplicates are discarded and no error is reported).  getopt keeps both
occurrences in order, dict collapses to the last value, the run uses the
second host and second port (the first port value is never even converted),
and the run does not exit with status 1. -/
theorem duplicate_options_last_wins (argv0 h1v h2v p1 p2 topic : String) (env : KafkaEnv)
    (n : Int) (ht : strStartsWith topic "-" = false) (hp : pyInt p2 = some n) :
    kafcatGetopt ["--host", h1v, "--host", h2v, "--port", p1, "--port", p2, topic]
      = .ok ([("--host", h1v), ("--host", h2v), ("--port", p1), ("--port", p2)], [topic])
    ∧ dictGet [("--host", h1v), ("--host", h2v), ("--port", p1), ("--port", p2)]
        "--host" "localhost" = h2v
    ∧ dictGet [("--host", h1v), ("--host", h2v), ("--port", p1), ("--port", p2)]
        "--port" "9092" = p2
    ∧ (kafcatRun argv0 ["--host", h1v, "--host", h2v, "--port", p1, "--port", p2, topic]
        env Interrupt.none).host = h2v
    ∧ (kafcatRun argv0 ["--host", h1v, "--host", h2v, "--port", p1, "--port", p2, topic]
        env Interrupt.none).port = some n
    ∧ (kafcatRun argv0 ["--host", h1v, "--host", h2v, "--port", p1, "--port", p2, topic]
        env Interrupt.none).exit = some 0 := by
  have hg : kafcatGetopt ["--host", h1v, "--host", h2v, "--port", p1, "--port", p2, topic]
      = .ok ([("--host", h1v), ("--host", h2v), ("--port", p1), ("--port", p2)], [topic]) := by
    unfold kafcatGetopt pygetopt
    rw [getoptAux_step_long _ _ _ "--host" "host" h1v _
      (by decide) (by decide) (by decide) (by decide) (by decide)]
    rw [getoptAux_step_long _ _ _ "--host" "host" h2v _
      (by decide) (by decide) (by decide) (by decide) (by decide)]
    rw [getoptAux_step_long _ _ _ "--port" "port" p1 _
      (by decide) (by decide) (by decide) (by decide) (by decide)]
    rw [getoptAux_step_long _ _ _ "--port" "port" p2 _
      (by decide) (by decide) (by decide) (by decide) (by decide)]
    rw [getoptAux_stop _ _ _ topic [] (Or.inl ht)]
    rfl
  have hdh : dictGet [("--host", h1v), ("--host", h2v), ("--port", p1), ("--port", p2)]
      "--host" "localhost" = h2v := rfl
  have hdp : dictGet [("--host", h1v), ("--host", h2v), ("--port", p1), ("--port", p2)]
      "--port" "9092" = p2 := rfl
  have hport : pyInt (dictGet [("--host", h1v), ("--host", h2v), ("--port", p1), ("--port", p2)]
      "--port" "9092") = some n := by rw [hdp]; exact hp
  have hrun := kafcatRun_parsed argv0 env Interrupt.none hg hport
  refine ⟨hg, hdh, hdp, ?_, ?_, ?_⟩ <;> rw [hrun] <;> rfl

end Kafcat

namespace Kafcat

/-- The spec scenario: topic "orders" with messages "A", "B", "C" at offsets
0, 1, 2 on one partition, and the stored cursor at offset 1. -/
def scenarioEnv : KafkaEnv :=
  { partitions := [{ earliest := 0, msgs := ["A", "B", "C"] }], committed := [1] }

/-- Witness for C1 at the spec scenario. -/
theorem commit_cursor_invariant_witness :
    commitsRespectPrints scenarioEnv.partitions (startCursorsOf ["orders"] scenarioEnv)
      ((kafcatRun "kafcat" ["orders"] scenarioEnv Interrupt.none).events) 0
    ∧ ∀ cs ∈ commitValues ((kafcatRun "kafcat" ["orders"] scenarioEnv Interrupt.none).events),
        cursorsLE cs (advanceCursors scenarioEnv.partitions (startCursorsOf ["orders"] scenarioEnv)
          (printsOf ((kafcatRun "kafcat" ["orders"] scenarioEnv Interrupt.none).events)).length) :=
  commit_cursor_invariant "kafcat" ["orders"] scenarioEnv Interrupt.none

/-- Witness for C2: with -b the trace opens with seek-to-earliest and an
immediate commit, before any print. -/
theorem seek_commit_iff_b_witness :
    (∃ rest, (kafcatRun "kafcat" ["-b", "orders"] scenarioEnv Interrupt.none).events
        = Event.seek (scenarioEnv.partitions.map Partition.earliest)
          :: Event.commit (scenarioEnv.partitions.map Partition.earliest) :: rest)
    ∧ (∃ rest, feedFrom scenarioEnv.partitions (scenarioEnv.partitions.map Partition.earliest)
        = printsOf ((kafcatRun "kafcat" ["-b", "orders"] scenarioEnv Interrupt.none).events)
          ++ rest) :=
  (seek_commit_iff_b "kafcat" ["-b", "orders"] scenarioEnv Interrupt.none
    [("-b", "")] "orders" 9092 (by decide) (by decide) (by decide)).1 (by decide)

/-- Witness for C3 at the spec scenario, in follow mode and in one-shot
mode. -/
theorem follow_vs_oneshot_witness :
    ((kafcatRun "kafcat" ["-f", "orders"] scenarioEnv Interrupt.none).iterTimeout = Option.none
      ∧ (kafcatRun "kafcat" ["-f", "orders"] scenarioEnv Interrupt.none).exit = Option.none
      ∧ ∀ k, (kafcatRun "kafcat" ["-f", "orders"] scenarioEnv (Interrupt.afterN k)).exit
          = some 130)
    ∧ ((kafcatRun "kafcat" ["orders"] scenarioEnv Interrupt.none).iterTimeout = some (0.5 : ℚ)
      ∧ (kafcatRun "kafcat" ["orders"] scenarioEnv Interrupt.none).exit = some 0) :=
  ⟨(follow_vs_oneshot "kafcat" ["-f", "orders"] scenarioEnv [("-f", "")] "orders" 9092
      (by decide) (by decide)).1 (by decide),
   (follow_vs_oneshot "kafcat" ["orders"] scenarioEnv [] "orders" 9092
      (by decide) (by decide)).2 (by decide)⟩

/-- Witness for C4 at the spec scenario. -/
theorem interrupt_exit_130_witness :
    (kafcatRun "kafcat" ["orders"] scenarioEnv Interrupt.beforeConsumer).exit = some 130
    ∧ commitValues ((kafcatRun "kafcat" ["orders"] scenarioEnv Interrupt.beforeConsumer).events)
        = []
    ∧ (kafcatRun "kafcat" ["orders"] scenarioEnv (Interrupt.afterN 1)).exit = some 130 :=
  ⟨(interrupt_exit_130 "kafcat" ["orders"] scenarioEnv [] "orders" 9092 1
      (by decide) (by decide)).1.1,
   (interrupt_exit_130 "kafcat" ["orders"] scenarioEnv [] "orders" 9092 1
      (by decide) (by decide)).1.2.1,
   (interrupt_exit_130 "kafcat" ["orders"] scenarioEnv [] "orders" 9092 1
      (by decide) (by decide)).2.1⟩

/-- Witness for C5 at the spec scenario. -/
theorem output_verbatim_newline_witness :
    (kafcatRun "kafcat" ["orders"] scenarioEnv Interrupt.none).stdout
      = String.join ((printsOf ((kafcatRun "kafcat" ["orders"] scenarioEnv
          Interrupt.none).events)).map (fun m => m ++ "\n")) :=
  (output_verbatim_newline "kafcat" ["orders"] scenarioEnv Interrupt.none [] "orders" 9092
    (by decide) (by decide) (by decide)).1

/-- Witness for C6: an unknown flag yields the usage text, exit status 1 and
no connection. -/
theorem malformed_args_usage_witness :
    (kafcatRun "kafcat" ["-x", "topic"] scenarioEnv Interrupt.none).exit = some 1
    ∧ (kafcatRun "kafcat" ["-x", "topic"] scenarioEnv Interrupt.none).stdout = usageText "kafcat"
    ∧ (kafcatRun "kafcat" ["-x", "topic"] scenarioEnv Interrupt.none).connected = false :=
  (malformed_args_usage "kafcat" ["-x", "topic"] scenarioEnv Interrupt.none
    (Or.inl (by decide))).1

/-- Witness for C7: two positional topics, and a non-integer --port value. -/
theorem invalid_args_no_connection_witness :
    ((kafcatRun "kafcat" ["t1", "t2"] scenarioEnv Interrupt.none).exit = some 1
      ∧ (kafcatRun "kafcat" ["t1", "t2"] scenarioEnv Interrupt.none).connected = false)
    ∧ ((kafcatRun "kafcat" ["--port", "abc", "orders"] scenarioEnv Interrupt.none).exit = some 1
      ∧ (kafcatRun "kafcat" ["--port", "abc", "orders"] scenarioEnv
          Interrupt.none).connected = false) :=
  ⟨(invalid_args_no_connection "kafcat" scenarioEnv Interrupt.none).2.1 "t1" "t2" (by decide),
   (invalid_args_no_connection "kafcat" scenarioEnv Interrupt.none).2.2 "abc" "orders"
     (by decide) (by decide)⟩

/-- Witness for C8 at the spec scenario. -/
theorem oneshot_commit_exit0_witness :
    (kafcatRun "kafcat" ["orders"] scenarioEnv Interrupt.none).exit = some 0
    ∧ printsOf ((kafcatRun "kafcat" ["orders"] scenarioEnv Interrupt.none).events)
        = feedFrom scenarioEnv.partitions (startCursorsOf ["orders"] scenarioEnv) :=
  ⟨(oneshot_commit_exit0 "kafcat" ["orders"] scenarioEnv [] "orders" 9092
      (by decide) (by decide) (by decide)).1,
   (oneshot_commit_exit0 "kafcat" ["orders"] scenarioEnv [] "orders" 9092
      (by decide) (by decide) (by decide)).2.1⟩

/-- Witness for C9 at the spec scenario: the first one-shot run prints
B and C and commits offset 3; the rerun prints nothing. -/
theorem oneshot_idempotent_witness :
    (kafcatRun "kafcat" ["orders"] scenarioEnv Interrupt.none).stdout = "B\nC\n"
    ∧ (kafcatRun "kafcat" ["orders"] scenarioEnv Interrupt.none).envAfter.committed = [3]
    ∧ printsOf ((kafcatRun "kafcat" ["orders"]
        ((kafcatRun "kafcat" ["orders"] scenarioEnv Interrupt.none).envAfter)
        Interrupt.none).events) = []
    ∧ (kafcatRun "kafcat" ["orders"]
        ((kafcatRun "kafcat" ["orders"] scenarioEnv Interrupt.none).envAfter)
        Interrupt.none).stdout = "" :=
  ⟨by decide, by decide,
   (oneshot_idempotent "kafcat" ["orders"] scenarioEnv [] "orders" 9092
      (by decide) (by decide) (by decide) (by decide)).1,
   (oneshot_idempotent "kafcat" ["orders"] scenarioEnv [] "orders" 9092
      (by decide) (by decide) (by decide) (by decide)).2.1⟩

/-- Witness for C10: duplicated --host and --port use the later values. -/
theorem duplicate_options_last_wins_witness :
    (kafcatRun "kafcat" ["--host", "a", "--host", "b", "--port", "1", "--port", "2", "orders"]
        scenarioEnv Interrupt.none).host = "b"
    ∧ (kafcatRun "kafcat" ["--host", "a", "--host", "b", "--port", "1", "--port", "2", "orders"]
        scenarioEnv Interrupt.none).port = some 2
    ∧ (kafcatRun "kafcat" ["--host", "a", "--host", "b", "--port", "1", "--port", "2", "orders"]
        scenarioEnv Interrupt.none).exit = some 0 :=
  ⟨(duplicate_options_last_wins "kafcat" "a" "b" "1" "2" "orders" scenarioEnv 2
      (by decide) (by decide)).2.2.2.1,
   (duplicate_options_last_wins "kafcat" "a" "b" "1" "2" "orders" scenarioEnv 2
      (by decide) (by decide)).2.2.2.2.1,
   (duplicate_options_last_wins "kafcat" "a" "b" "1" "2" "orders" scenarioEnv 2
      (by decide) (by decide)).2.2.2.2.2⟩

end Kafcat
